import Mathlib

/-!
Shallow embedding of the Crypto-Dashboard ingestion pipeline.

Source files embedded here:
- `services/crypto_service.py` (`CryptoService.fetch_top_10_cryptocurrencies`)
- `services/database_service.py` (`DatabaseService.store_crypto_data`,
  `get_latest_top_10`, `log_dashboard_update`, `cleanup_old_data`)
- `lambda_function.py` (`lambda_handler`)

Modelling conventions:
- Timestamps are `Nat` (seconds since an arbitrary epoch); `datetime.utcnow()`
  becomes an explicit `now : Nat` argument, passed once per call, mirroring the
  single `timestamp = datetime.utcnow()` taken at the start of
  `store_crypto_data`.
- Monetary `Numeric` columns are `Int` (exact values; the claims never depend
  on decimal scale).
- A SQLAlchemy session is modelled transactionally: a call computes its full
  set of pending writes and either commits them all (returning `True`) or the
  surrounding `except` handler rolls the session back, leaving the committed
  state unchanged (returning `False`).  A Boolean fault flag injects the
  "some row / the commit raises" failure that the Python `except Exception`
  branch catches.
- Tables are lists of rows; autoincrement surrogate keys are dropped because
  no embedded query reads them.
-/

namespace CryptoDashboard

/-- Normalized quote dictionary produced by
`CryptoService.fetch_top_10_cryptocurrencies` and consumed by
`DatabaseService.store_crypto_data` (crypto_service.py lines 41-51). -/
structure Quote where
  id : String
  name : String
  symbol : String
  price_usd : Int
  market_cap_usd : Int
  volume_24h_usd : Int
  price_change_24h_percent : Int
  market_cap_rank : Nat
  image_url : String
deriving Repr, DecidableEq

/-- One element of the CoinGecko `/coins/markets` JSON array, restricted to the
fields the service reads (crypto_service.py lines 41-51).
`price_change_percentage_24h` is nullable in the API. -/
structure Coin where
  id : String
  name : String
  symbol : String
  current_price : Int
  market_cap : Int
  total_volume : Int
  price_change_percentage_24h : Option Int
  market_cap_rank : Nat
  image : String
deriving Repr, DecidableEq

/-- Row of the `cryptocurrencies` table (models.py lines 5-14). -/
structure CryptoCurrencyRow where
  id : String
  name : String
  symbol : String
  created_at : Nat
  updated_at : Nat
deriving Repr, DecidableEq

/-- Row of the `crypto_data` table (models.py lines 17-32), minus the
autoincrement surrogate key which no embedded query reads. -/
structure CryptoDataRow where
  crypto_id : String
  price_usd : Int
  market_cap_usd : Int
  volume_24h_usd : Int
  price_change_24h_percent : Int
  market_cap_rank : Nat
  timestamp : Nat
deriving Repr, DecidableEq

/-- Row of the `dashboard_updates` table (models.py lines 35-43).  The JSON
column `top_10_data` is kept structured as `Option (List Quote)`. -/
structure DashboardUpdateRow where
  update_timestamp : Nat
  status : String
  error_message : Option String
  email_sent : Bool
  top_10_data : Option (List Quote)
deriving Repr, DecidableEq

/-- The committed database state: the three tables of models.py. -/
structure DBState where
  cryptos : List CryptoCurrencyRow
  data : List CryptoDataRow
  updates : List DashboardUpdateRow
deriving Repr, DecidableEq

/-- The empty database. -/
def emptyDB : DBState := ⟨[], [], []⟩

/-- Normalization of one API coin into the service's dictionary shape
(crypto_service.py lines 41-51): symbol upper-cased, a falsy (null or zero)
24h change collapsed to 0 by `coin['price_change_percentage_24h'] or 0`. -/
def normalizeCoin (coin : Coin) : Quote :=
  { id := coin.id
    name := coin.name
    symbol := coin.symbol.toUpper
    price_usd := coin.current_price
    market_cap_usd := coin.market_cap
    volume_24h_usd := coin.total_volume
    price_change_24h_percent := coin.price_change_percentage_24h.getD 0
    market_cap_rank := coin.market_cap_rank
    image_url := coin.image }

/-- `CryptoService.fetch_top_10_cryptocurrencies` (crypto_service.py lines
14-62).  The HTTP layer is abstracted as `response`: `none` is any request
error, non-2xx status or malformed payload (all collapse to `return None`);
`some data` is the decoded JSON array of a successful response, which the
service maps through the normalization loop. -/
def fetch_top_10_cryptocurrencies (response : Option (List Coin)) :
    Option (List Quote) :=
  match response with
  | none => none
  | some data => some (data.map normalizeCoin)

/-- The `CryptoData` row built for one quote inside the `store_crypto_data`
loop (database_service.py lines 60-68); every row of one call is stamped with
the single `timestamp` taken at line 35. -/
def mkCryptoData (now : Nat) (q : Quote) : CryptoDataRow :=
  { crypto_id := q.id
    price_usd := q.price_usd
    market_cap_usd := q.market_cap_usd
    volume_24h_usd := q.volume_24h_usd
    price_change_24h_percent := q.price_change_24h_percent
    market_cap_rank := q.market_cap_rank
    timestamp := now }

/-- One iteration of the upsert loop of `store_crypto_data` (database_service.py
lines 47-57) acting on the cryptocurrencies table.  The membership test uses
`base`, the snapshot of existing rows fetched in bulk before the loop (lines
38-43), exactly as the Python dict `existing_cryptos` does. -/
def upsertStep (base : List CryptoCurrencyRow) (now : Nat)
    (cs : List CryptoCurrencyRow) (q : Quote) : List CryptoCurrencyRow :=
  if base.any (fun c => c.id == q.id) then
    cs.map (fun c =>
      if c.id == q.id then
        { c with name := q.name, symbol := q.symbol, updated_at := now }
      else c)
  else
    cs ++ [⟨q.id, q.name, q.symbol, now, now⟩]

/-- The full set of pending writes of one `store_crypto_data` call
(database_service.py lines 35-72): the upsert loop over the cryptocurrencies
table followed by the bulk `add_all` of the new data points. -/
def applyBatch (now : Nat) (st : DBState) (crypto_list : List Quote) : DBState :=
  { st with
    cryptos := crypto_list.foldl (upsertStep st.cryptos now) st.cryptos
    data := st.data ++ crypto_list.map (mkCryptoData now) }

/-- `DatabaseService.store_crypto_data` (database_service.py lines 24-85).
`fail = true` injects an exception anywhere before the `commit` at line 74
returns (a row failure or the commit itself); the handler at lines 81-85 rolls
the session back, so the committed state is unchanged and `False` is
returned.  Otherwise the whole batch commits and `True` is returned. -/
def store_crypto_data (fail : Bool) (now : Nat) (st : DBState)
    (crypto_list : List Quote) : DBState × Bool :=
  if fail then (st, false)
  else (applyBatch now st crypto_list, true)

/-- Maximum `timestamp` over the `crypto_data` table: the embedding of
`query(CryptoData.timestamp).order_by(desc(...)).limit(1).scalar()`
(database_service.py lines 96-101); `none` when the table is empty. -/
def latestTimestamp : List CryptoDataRow → Option Nat
  | [] => none
  | d :: ds =>
    match latestTimestamp ds with
    | none => some d.timestamp
    | some m => some (max d.timestamp m)

/-- The projected row returned by `get_latest_top_10` (database_service.py
lines 108-144): data-point columns plus `name` and `symbol` joined from the
cryptocurrencies table. -/
structure TopRow where
  crypto_id : String
  name : String
  symbol : String
  price_usd : Int
  market_cap_usd : Int
  volume_24h_usd : Int
  price_change_24h_percent : Int
  market_cap_rank : Nat
  timestamp : Nat
deriving Repr, DecidableEq

/-- The inner join of one data row with the cryptocurrencies table
(`.join(CryptoCurrency, CryptoData.crypto_id == CryptoCurrency.id)`,
database_service.py lines 120-123): a data row with no matching currency row
is dropped. -/
def joinRow (cryptos : List CryptoCurrencyRow) (d : CryptoDataRow) :
    Option TopRow :=
  (cryptos.find? (fun c => c.id == d.crypto_id)).map (fun c =>
    { crypto_id := d.crypto_id
      name := c.name
      symbol := c.symbol
      price_usd := d.price_usd
      market_cap_usd := d.market_cap_usd
      volume_24h_usd := d.volume_24h_usd
      price_change_24h_percent := d.price_change_24h_percent
      market_cap_rank := d.market_cap_rank
      timestamp := d.timestamp })

/-- The `ORDER BY market_cap_rank` relation of the top-10 query
(database_service.py line 125). -/
def rankLE (a b : TopRow) : Prop := a.market_cap_rank ≤ b.market_cap_rank

instance : DecidableRel rankLE := fun a b =>
  inferInstanceAs (Decidable (a.market_cap_rank ≤ b.market_cap_rank))

instance : IsTotal TopRow rankLE :=
  ⟨fun a b => Nat.le_total a.market_cap_rank b.market_cap_rank⟩

instance : IsTrans TopRow rankLE := ⟨fun _ _ _ => Nat.le_trans⟩

/-- `DatabaseService.get_latest_top_10` (database_service.py lines 87-153):
find the maximum timestamp (empty table gives `[]`, line 103-105), keep the
rows at that timestamp, inner-join with the cryptocurrencies table, order by
`market_cap_rank` ascending and take 10. -/
def get_latest_top_10 (st : DBState) : List TopRow :=
  match latestTimestamp st.data with
  | none => []
  | some t =>
    (((st.data.filter (fun d => d.timestamp == t)).filterMap
        (joinRow st.cryptos)).insertionSort rankLE).take 10

/-- `DatabaseService.log_dashboard_update` (database_service.py lines
181-217).  `fail = true` injects the exception caught at lines 214-217, which
rolls back, leaving the state unchanged.  `json.dumps(top_10_data) if
top_10_data else None` stores `None` for both a missing and an empty payload.
`update_timestamp` takes its `datetime.utcnow` column default, passed as
`now`. -/
def log_dashboard_update (fail : Bool) (now : Nat) (st : DBState)
    (status : String) (error_message : Option String) (email_sent : Bool)
    (top_10_data : Option (List Quote)) : DBState × Bool :=
  if fail then (st, false)
  else
    let payload : Option (List Quote) :=
      match top_10_data with
      | none => none
      | some l => if l.isEmpty then none else some l
    ({ st with
        updates := st.updates ++
          [⟨now, status, error_message, email_sent, payload⟩] },
      true)

/-- `DatabaseService.cleanup_old_data` (database_service.py lines 278-315):
delete the `crypto_data` rows and `dashboard_updates` rows whose timestamp is
strictly before `now - days_to_keep` days, in one transaction; `fail = true`
injects the exception caught at lines 312-315 (rollback, `False`). -/
def cleanup_old_data (fail : Bool) (now : Nat) (st : DBState)
    (days_to_keep : Nat) : DBState × Bool :=
  if fail then (st, false)
  else
    let cutoff := now - days_to_keep * 86400
    ({ st with
        data := st.data.filter (fun d => !(decide (d.timestamp < cutoff)))
        updates :=
          st.updates.filter (fun u => !(decide (u.update_timestamp < cutoff))) },
      true)

/-- Error message synthesized by `lambda_handler` when the fetch step yields a
falsy result (lambda_function.py line 43). -/
def fetchErrorMsg : String :=
  "Failed to fetch cryptocurrency data from CoinGecko API"

/-- Error message synthesized by `lambda_handler` when the store step returns
`False` (lambda_function.py line 64). -/
def storeErrorMsg : String :=
  "Failed to store cryptocurrency data in database"

/-- Observable outcome of one `lambda_handler` run: the HTTP-style result
(lambda_function.py lines 54-57, 75-78, 90-101) plus whether
`send_error_notification` was invoked. -/
structure LambdaOutcome where
  statusCode : Nat
  bodyStatus : String
  errorNotified : Bool
deriving Repr, DecidableEq

/-- The shared failure path of `lambda_handler` (lambda_function.py lines
42-57 and 63-78): log a failed update (`email_sent=False`), attempt the error
notification (best effort, result ignored), and return a 500 error body. -/
def failedRunPath (logFail : Bool) (now : Nat) (st : DBState) (msg : String) :
    DBState × LambdaOutcome :=
  ((log_dashboard_update logFail now st "failed" (some msg) false none).1,
    ⟨500, "error", true⟩)

/-- `lambda_handler` (lambda_function.py lines 18-113).  Environment inputs:
`fetchResult` is what `fetch_top_10_cryptocurrencies` returned (`none` on
failure), `storeFail`/`logFail` are the database fault flags, and `emailOk` is
the Boolean returned by `send_daily_dashboard_email`.  The guard at line 42 is
Python's `if not crypto_data`, which treats `None` and the empty list alike. -/
def lambda_handler (st : DBState) (now : Nat)
    (fetchResult : Option (List Quote)) (storeFail logFail emailOk : Bool) :
    DBState × LambdaOutcome :=
  match fetchResult with
  | none => failedRunPath logFail now st fetchErrorMsg
  | some crypto_data =>
    if crypto_data.isEmpty then failedRunPath logFail now st fetchErrorMsg
    else
      let storeRes := store_crypto_data storeFail now st crypto_data
      if storeRes.2 then
        let email_sent := emailOk
        ((log_dashboard_update logFail now storeRes.1 "success" none
            email_sent none).1,
          ⟨200, "success", false⟩)
      else failedRunPath logFail now storeRes.1 storeErrorMsg

/-- Specification-side projection of a returned top row onto the fields
claim C1 tracks: id, rank, price, market cap. -/
def TopRow.keyFields (r : TopRow) : String × Nat × Int × Int :=
  (r.crypto_id, r.market_cap_rank, r.price_usd, r.market_cap_usd)

/-- Specification-side projection of an input quote onto the fields claim C1
tracks: id, rank, price, market cap. -/
def Quote.keyFields (q : Quote) : String × Nat × Int × Int :=
  (q.id, q.market_cap_rank, q.price_usd, q.market_cap_usd)

/-- Concrete quote used by the witness scenarios. -/
def mkSampleQuote (s : String) (r : Nat) : Quote :=
  ⟨s, s, s, (100 - r : Int), (1000 - r : Int), 50, 2, r, s⟩

/-- A concrete valid 10-quote batch with distinct ids and distinct ranks
1..10, listed out of rank order. -/
def sampleQuotes : List Quote :=
  [mkSampleQuote "eth" 2, mkSampleQuote "btc" 1, mkSampleQuote "usdt" 3,
   mkSampleQuote "bnb" 4, mkSampleQuote "sol" 5, mkSampleQuote "xrp" 6,
   mkSampleQuote "usdc" 7, mkSampleQuote "ada" 9, mkSampleQuote "doge" 8,
   mkSampleQuote "ton" 10]

/-- Concrete API coin used by the witness scenarios; `chg` is the nullable
24h-change field. -/
def mkSampleCoin (s : String) (r : Nat) (chg : Option Int) : Coin :=
  ⟨s, s, s, (100 - r : Int), (1000 - r : Int), 50, chg, r, s⟩

/-- A concrete 10-coin API response in which coin 3 has a null 24h change. -/
def sampleCoins : List Coin :=
  [mkSampleCoin "btc" 1 (some 5), mkSampleCoin "eth" 2 (some (-3)),
   mkSampleCoin "usdt" 3 none, mkSampleCoin "bnb" 4 (some 1),
   mkSampleCoin "sol" 5 (some 9), mkSampleCoin "xrp" 6 (some 0),
   mkSampleCoin "usdc" 7 (some 2), mkSampleCoin "doge" 8 (some 7),
   mkSampleCoin "ada" 9 (some (-1)), mkSampleCoin "ton" 10 (some 4)]

/-- Concrete database for the retention witness: one `crypto_data` row and one
`dashboard_updates` row at each of 95, 65 and 35 days after the epoch, read
against `now` = day 100 as ages of 5, 35 and 65 days. -/
def retentionDB : DBState :=
  { cryptos := []
    data := [⟨"a", 1, 1, 1, 0, 1, 8208000⟩, ⟨"b", 1, 1, 1, 0, 2, 5616000⟩,
             ⟨"c", 1, 1, 1, 0, 3, 3024000⟩]
    updates := [⟨8208000, "success", none, true, none⟩,
                ⟨5616000, "success", none, true, none⟩,
                ⟨3024000, "failed", some "x", false, none⟩] }

/-! ## Helper lemmas -/

theorem latestTimestamp_cons (d : CryptoDataRow) (ds : List CryptoDataRow) :
    latestTimestamp (d :: ds) =
      match latestTimestamp ds with
      | none => some d.timestamp
      | some m => some (max d.timestamp m) := rfl

theorem latestTimestamp_const (l : List CryptoDataRow) (n : Nat)
    (hne : l ≠ []) (h : ∀ d ∈ l, d.timestamp = n) :
    latestTimestamp l = some n := by
  induction l with
  | nil => exact absurd rfl hne
  | cons d ds ih =>
    cases ds with
    | nil => simp [latestTimestamp, h d (List.mem_cons_self d [])]
    | cons e ds' =>
      have hrest : latestTimestamp (e :: ds') = some n :=
        ih (by simp) (fun x hx => h x (List.mem_cons_of_mem d hx))
      rw [latestTimestamp_cons, hrest]
      simp [h d (List.mem_cons_self d _)]

theorem latestTimestamp_append_fresh (l₁ l₂ : List CryptoDataRow) (n : Nat)
    (h₁ : ∀ d ∈ l₁, d.timestamp < n) (hne : l₂ ≠ [])
    (h₂ : ∀ d ∈ l₂, d.timestamp = n) :
    latestTimestamp (l₁ ++ l₂) = some n := by
  induction l₁ with
  | nil => simpa using latestTimestamp_const l₂ n hne h₂
  | cons d ds ih =>
    have hrest : latestTimestamp (ds ++ l₂) = some n :=
      ih (fun x hx => h₁ x (List.mem_cons_of_mem d hx))
    have hd : d.timestamp < n := h₁ d (List.mem_cons_self d _)
    rw [List.cons_append, latestTimestamp_cons, hrest]
    simp [Nat.max_eq_right (Nat.le_of_lt hd)]

theorem filter_fresh_append (l₁ l₂ : List CryptoDataRow) (n : Nat)
    (h₁ : ∀ d ∈ l₁, d.timestamp < n) (h₂ : ∀ d ∈ l₂, d.timestamp = n) :
    (l₁ ++ l₂).filter (fun d => d.timestamp == n) = l₂ := by
  rw [List.filter_append]
  have e₁ : l₁.filter (fun d => d.timestamp == n) = [] := by
    rw [List.filter_eq_nil_iff]
    intro a ha
    simp [Nat.ne_of_lt (h₁ a ha)]
  have e₂ : l₂.filter (fun d => d.timestamp == n) = l₂ := by
    rw [List.filter_eq_self]
    intro a ha
    simp [h₂ a ha]
  rw [e₁, e₂, List.nil_append]

theorem filterMap_eq_map_of_some {α β γ : Type _} (f : α → Option β)
    (g : β → γ) (p : α → γ) (l : List α)
    (H : ∀ a ∈ l, ∃ b, f a = some b ∧ g b = p a) :
    (l.filterMap f).map g = l.map p := by
  induction l with
  | nil => rfl
  | cons a l ih =>
    obtain ⟨b, hb, hgb⟩ := H a (List.mem_cons_self a l)
    simp only [List.filterMap_cons, hb, List.map_cons, hgb,
      ih (fun x hx => H x (List.mem_cons_of_mem a hx))]

theorem length_filterMap_of_some {α β : Type _} (f : α → Option β)
    (l : List α) (H : ∀ a ∈ l, (f a).isSome) :
    (l.filterMap f).length = l.length := by
  induction l with
  | nil => rfl
  | cons a l ih =>
    obtain ⟨b, hb⟩ := Option.isSome_iff_exists.mp (H a (List.mem_cons_self a l))
    simp only [List.filterMap_cons, hb, List.length_cons,
      ih (fun x hx => H x (List.mem_cons_of_mem a hx))]

theorem upsertStep_preserves_id (base : List CryptoCurrencyRow) (now : Nat)
    (cs : List CryptoCurrencyRow) (q : Quote) (i : String)
    (h : ∃ c ∈ cs, c.id = i) :
    ∃ c ∈ upsertStep base now cs q, c.id = i := by
  obtain ⟨c, hc, hcid⟩ := h
  unfold upsertStep
  by_cases hb : base.any (fun c => c.id == q.id) = true
  · simp only [hb, if_true]
    refine ⟨_, List.mem_map_of_mem _ hc, ?_⟩
    split <;> simpa using hcid
  · simp only [hb, if_false]
    exact ⟨c, List.mem_append_left _ hc, hcid⟩

theorem foldl_upsertStep_preserves_id (base : List CryptoCurrencyRow)
    (now : Nat) (qs : List Quote) (cs : List CryptoCurrencyRow) (i : String)
    (h : ∃ c ∈ cs, c.id = i) :
    ∃ c ∈ qs.foldl (upsertStep base now) cs, c.id = i := by
  induction qs generalizing cs with
  | nil => simpa using h
  | cons q qs ih => exact ih _ (upsertStep_preserves_id base now cs q i h)

theorem upsertStep_mem_id (base : List CryptoCurrencyRow) (now : Nat)
    (cs : List CryptoCurrencyRow) (q : Quote)
    (hinv : ∀ i, (∃ c ∈ base, c.id = i) → ∃ c ∈ cs, c.id = i) :
    ∃ c ∈ upsertStep base now cs q, c.id = q.id := by
  unfold upsertStep
  by_cases hbp : ∃ c ∈ base, c.id = q.id
  · have hb : base.any (fun c => c.id == q.id) = true := by
      obtain ⟨c, hc, hcq⟩ := hbp
      exact List.any_eq_true.mpr ⟨c, hc, by simp [hcq]⟩
    obtain ⟨c', hc', hid⟩ := hinv q.id hbp
    simp only [hb, if_true]
    refine ⟨_, List.mem_map_of_mem _ hc', ?_⟩
    have hbeq : (c'.id == q.id) = true := by simp [hid]
    simp [hbeq, hid]
  · have hb : base.any (fun c => c.id == q.id) = false := by
      rw [List.any_eq_false]
      intro c hc
      simp only [beq_iff_eq]
      exact fun h => hbp ⟨c, hc, h⟩
    simp only [hb, Bool.false_eq_true, if_false]
    exact ⟨⟨q.id, q.name, q.symbol, now, now⟩,
      List.mem_append_right _ (List.mem_singleton_self _), rfl⟩

theorem foldl_upsertStep_covers (base : List CryptoCurrencyRow) (now : Nat)
    (qs : List Quote) (cs : List CryptoCurrencyRow)
    (hinv : ∀ i, (∃ c ∈ base, c.id = i) → ∃ c ∈ cs, c.id = i) :
    ∀ q ∈ qs, ∃ c ∈ qs.foldl (upsertStep base now) cs, c.id = q.id := by
  induction qs generalizing cs with
  | nil => intro q hq; simp at hq
  | cons q qs ih =>
    intro p hp
    rcases List.mem_cons.mp hp with rfl | hp'
    · exact foldl_upsertStep_preserves_id base now qs _ _
        (upsertStep_mem_id base now cs p hinv)
    · exact ih _
        (fun i h => upsertStep_preserves_id base now cs q i (hinv i h)) p hp'

theorem applyBatch_covers (now : Nat) (st : DBState) (qs : List Quote) :
    ∀ q ∈ qs, ∃ c ∈ (applyBatch now st qs).cryptos, c.id = q.id :=
  foldl_upsertStep_covers st.cryptos now qs st.cryptos (fun _ h => h)

theorem joinRow_some_of_covered (cryptos : List CryptoCurrencyRow)
    (d : CryptoDataRow) (h : ∃ c ∈ cryptos, c.id = d.crypto_id) :
    ∃ r, joinRow cryptos d = some r ∧ r.crypto_id = d.crypto_id ∧
      r.market_cap_rank = d.market_cap_rank ∧ r.price_usd = d.price_usd ∧
      r.market_cap_usd = d.market_cap_usd ∧ r.timestamp = d.timestamp := by
  cases hfind : cryptos.find? (fun c => c.id == d.crypto_id) with
  | none =>
    exfalso
    obtain ⟨c, hc, hcid⟩ := h
    have := List.find?_eq_none.mp hfind c hc
    simp [hcid] at this
  | some c =>
    refine ⟨{ crypto_id := d.crypto_id, name := c.name, symbol := c.symbol,
              price_usd := d.price_usd, market_cap_usd := d.market_cap_usd,
              volume_24h_usd := d.volume_24h_usd,
              price_change_24h_percent := d.price_change_24h_percent,
              market_cap_rank := d.market_cap_rank, timestamp := d.timestamp },
            ?_, rfl, rfl, rfl, rfl, rfl⟩
    simp [joinRow, hfind]

theorem get_latest_top_10_eq_of_latest (st : DBState) (t : Nat)
    (h : latestTimestamp st.data = some t) :
    get_latest_top_10 st =
      (((st.data.filter (fun d => d.timestamp == t)).filterMap
          (joinRow st.cryptos)).insertionSort rankLE).take 10 := by
  unfold get_latest_top_10
  rw [h]

theorem get_latest_top_10_timestamp (st : DBState) (t : Nat)
    (h : latestTimestamp st.data = some t) :
    ∀ r ∈ get_latest_top_10 st, r.timestamp = t := by
  intro r hr
  rw [get_latest_top_10_eq_of_latest st t h] at hr
  have hr1 := List.mem_of_mem_take hr
  have hr2 := (List.perm_insertionSort rankLE _).mem_iff.mp hr1
  obtain ⟨d, hd, hjoin⟩ := List.mem_filterMap.mp hr2
  have hdts : (d.timestamp == t) = true := (List.mem_filter.mp hd).2
  cases hfind : st.cryptos.find? (fun c => c.id == d.crypto_id) with
  | none => rw [joinRow, hfind] at hjoin; simp at hjoin
  | some c =>
    rw [joinRow, hfind] at hjoin
    simp at hjoin
    rw [← hjoin]
    simpa using hdts

theorem get_latest_applyBatch (now : Nat) (st : DBState) (qs : List Quote)
    (hfresh : ∀ d ∈ st.data, d.timestamp < now) (hne : qs ≠ [])
    (hlen : qs.length ≤ 10) :
    List.Perm ((get_latest_top_10 (applyBatch now st qs)).map TopRow.keyFields)
        (qs.map Quote.keyFields) ∧
      (get_latest_top_10 (applyBatch now st qs)).Sorted rankLE ∧
      (get_latest_top_10 (applyBatch now st qs)).length = qs.length := by
  have hdata : (applyBatch now st qs).data = st.data ++ qs.map (mkCryptoData now) :=
    rfl
  have hts : ∀ d ∈ qs.map (mkCryptoData now), d.timestamp = now := by
    intro d hd
    obtain ⟨q, _, rfl⟩ := List.mem_map.mp hd
    rfl
  have hne' : qs.map (mkCryptoData now) ≠ [] := by simpa using hne
  have hmax : latestTimestamp (applyBatch now st qs).data = some now := by
    rw [hdata]
    exact latestTimestamp_append_fresh _ _ _ hfresh hne' hts
  have hfilter : (applyBatch now st qs).data.filter (fun d => d.timestamp == now)
      = qs.map (mkCryptoData now) := by
    rw [hdata]
    exact filter_fresh_append _ _ _ hfresh hts
  have hglt : get_latest_top_10 (applyBatch now st qs) =
      (((qs.map (mkCryptoData now)).filterMap
          (joinRow (applyBatch now st qs).cryptos)).insertionSort rankLE).take
        10 := by
    rw [get_latest_top_10_eq_of_latest _ now hmax, hfilter]
  have hH : ∀ d ∈ qs.map (mkCryptoData now),
      ∃ b, joinRow (applyBatch now st qs).cryptos d = some b ∧
        TopRow.keyFields b =
          (d.crypto_id, d.market_cap_rank, d.price_usd, d.market_cap_usd) := by
    intro d hd
    obtain ⟨q, hq, rfl⟩ := List.mem_map.mp hd
    obtain ⟨r, hr, h1, h2, h3, h4, _⟩ :=
      joinRow_some_of_covered (applyBatch now st qs).cryptos
        (mkCryptoData now q) (applyBatch_covers now st qs q hq)
    exact ⟨r, hr, by simp [TopRow.keyFields, h1, h2, h3, h4]⟩
  have hproj : ((qs.map (mkCryptoData now)).filterMap
        (joinRow (applyBatch now st qs).cryptos)).map TopRow.keyFields =
      qs.map Quote.keyFields := by
    rw [filterMap_eq_map_of_some (joinRow (applyBatch now st qs).cryptos)
        TopRow.keyFields
        (fun d => (d.crypto_id, d.market_cap_rank, d.price_usd,
          d.market_cap_usd)) _ hH, List.map_map]
    rfl
  have hlenJ : ((qs.map (mkCryptoData now)).filterMap
      (joinRow (applyBatch now st qs).cryptos)).length = qs.length := by
    have := length_filterMap_of_some (joinRow (applyBatch now st qs).cryptos)
      (qs.map (mkCryptoData now))
      (fun d hd => by obtain ⟨b, hb, _⟩ := hH d hd; simp [hb])
    simpa using this
  have hsortlen : (((qs.map (mkCryptoData now)).filterMap
      (joinRow (applyBatch now st qs).cryptos)).insertionSort rankLE).length =
      qs.length := by
    rw [(List.perm_insertionSort rankLE _).length_eq, hlenJ]
  have htake : (((qs.map (mkCryptoData now)).filterMap
        (joinRow (applyBatch now st qs).cryptos)).insertionSort rankLE).take 10
      = ((qs.map (mkCryptoData now)).filterMap
        (joinRow (applyBatch now st qs).cryptos)).insertionSort rankLE :=
    List.take_of_length_le (by rw [hsortlen]; exact hlen)
  rw [hglt, htake]
  refine ⟨?_, List.sorted_insertionSort rankLE _, hsortlen⟩
  calc ((((qs.map (mkCryptoData now)).filterMap
          (joinRow (applyBatch now st qs).cryptos)).insertionSort
            rankLE).map TopRow.keyFields).Perm
        (((qs.map (mkCryptoData now)).filterMap
          (joinRow (applyBatch now st qs).cryptos)).map TopRow.keyFields) :=
      (List.perm_insertionSort rankLE _).map _
    _ = qs.map Quote.keyFields := hproj

/-! ## Claim theorems -/

/-- C1: for every valid list of 10 quotes with distinct ranks (and distinct
ids), storing it with `store_crypto_data` at a time `now` later than every
committed data point and then calling `get_latest_top_10` returns exactly
those 10 quotes' id, rank, price and market cap, ordered ascending by
`market_cap_rank`. -/
theorem C1_store_then_get_latest_top_10 (st : DBState) (now : Nat)
    (qs : List Quote) (hlen : qs.length = 10)
    (hranks : (qs.map Quote.market_cap_rank).Nodup)
    (hids : (qs.map Quote.id).Nodup)
    (hfresh : ∀ d ∈ st.data, d.timestamp < now) :
    (get_latest_top_10 (store_crypto_data false now st qs).1).length = 10 ∧
      List.Perm
        ((get_latest_top_10 (store_crypto_data false now st qs).1).map
          TopRow.keyFields)
        (qs.map Quote.keyFields) ∧
      (get_latest_top_10 (store_crypto_data false now st qs).1).Sorted
        rankLE := by
  have hne : qs ≠ [] := by
    intro h
    rw [h] at hlen
    simp at hlen
  have hmain := get_latest_applyBatch now st qs hfresh hne (le_of_eq hlen)
  have hst : (store_crypto_data false now st qs).1 = applyBatch now st qs := rfl
  rw [hst]
  exact ⟨by rw [hmain.2.2, hlen], hmain.1, hmain.2.1⟩

theorem C1_witness :
    (sampleQuotes.length = 10 ∧
      (sampleQuotes.map Quote.market_cap_rank).Nodup ∧
      (sampleQuotes.map Quote.id).Nodup ∧
      (∀ d ∈ emptyDB.data, d.timestamp < 7)) ∧
    ((get_latest_top_10 (store_crypto_data false 7 emptyDB sampleQuotes).1).length
        = 10 ∧
      List.Perm
        ((get_latest_top_10
            (store_crypto_data false 7 emptyDB sampleQuotes).1).map
          TopRow.keyFields)
        (sampleQuotes.map Quote.keyFields) ∧
      (get_latest_top_10 (store_crypto_data false 7 emptyDB sampleQuotes).1).Sorted
        rankLE) :=
  ⟨⟨by decide, by decide, by decide, by decide⟩,
    C1_store_then_get_latest_top_10 emptyDB 7 sampleQuotes (by decide)
      (by decide) (by decide) (by decide)⟩

/-- C2: `store_crypto_data` is atomic.  The fault flag injects a failure on
any row of the batch (the `except` handler of database_service.py lines 81-85
catches it wherever it arises before the single commit at line 74): no new
`CryptoCurrency` or `CryptoData` rows persist, the call returns `False`, and
`get_latest_top_10` still reflects the prior state's data. -/
theorem C2_store_failure_atomic (st : DBState) (now : Nat) (qs : List Quote) :
    (store_crypto_data true now st qs).2 = false ∧
      (store_crypto_data true now st qs).1 = st ∧
      (store_crypto_data true now st qs).1.cryptos = st.cryptos ∧
      (store_crypto_data true now st qs).1.data = st.data ∧
      get_latest_top_10 (store_crypto_data true now st qs).1 =
        get_latest_top_10 st :=
  ⟨rfl, rfl, rfl, rfl, rfl⟩

/-- C3: every `store_crypto_data` call stamps all its inserted `CryptoData`
rows with the one timestamp taken at the start of the call; two successive
runs at `now1 < now2` produce two distinct timestamp groups, and
`get_latest_top_10` afterwards returns rows of the most recent group only. -/
theorem C3_timestamp_groups (st : DBState) (now1 now2 : Nat)
    (qs1 qs2 : List Quote)
    (hfresh : ∀ d ∈ st.data, d.timestamp < now1)
    (hlt : now1 < now2) (hne : qs2 ≠ []) :
    ((store_crypto_data false now1 st qs1).1.data =
        st.data ++ qs1.map (mkCryptoData now1) ∧
      ∀ d ∈ qs1.map (mkCryptoData now1), d.timestamp = now1) ∧
    ((store_crypto_data false now2 (store_crypto_data false now1 st qs1).1
          qs2).1.data =
        (store_crypto_data false now1 st qs1).1.data ++
          qs2.map (mkCryptoData now2) ∧
      ∀ d ∈ qs2.map (mkCryptoData now2), d.timestamp = now2) ∧
    now1 ≠ now2 ∧
    ∀ r ∈ get_latest_top_10
        (store_crypto_data false now2 (store_crypto_data false now1 st qs1).1
          qs2).1,
      r.timestamp = now2 := by
  have hts1 : ∀ d ∈ qs1.map (mkCryptoData now1), d.timestamp = now1 := by
    intro d hd
    obtain ⟨q, _, rfl⟩ := List.mem_map.mp hd
    rfl
  have hts2 : ∀ d ∈ qs2.map (mkCryptoData now2), d.timestamp = now2 := by
    intro d hd
    obtain ⟨q, _, rfl⟩ := List.mem_map.mp hd
    rfl
  refine ⟨⟨rfl, hts1⟩, ⟨rfl, hts2⟩, Nat.ne_of_lt hlt, ?_⟩
  apply get_latest_top_10_timestamp
  have hfresh2 : ∀ d ∈ st.data ++ qs1.map (mkCryptoData now1),
      d.timestamp < now2 := by
    intro d hd
    rcases List.mem_append.mp hd with h | h
    · exact Nat.lt_trans (hfresh d h) hlt
    · rw [hts1 d h]; exact hlt
  have hd2 : (store_crypto_data false now2
      (store_crypto_data false now1 st qs1).1 qs2).1.data =
      (st.data ++ qs1.map (mkCryptoData now1)) ++ qs2.map (mkCryptoData now2) :=
    rfl
  rw [hd2]
  exact latestTimestamp_append_fresh _ _ _ hfresh2 (by simpa using hne) hts2

theorem C3_witness :
    ((∀ d ∈ emptyDB.data, d.timestamp < 1) ∧ 1 < 2 ∧ sampleQuotes ≠ []) ∧
    (((store_crypto_data false 1 emptyDB sampleQuotes).1.data =
        emptyDB.data ++ sampleQuotes.map (mkCryptoData 1) ∧
      ∀ d ∈ sampleQuotes.map (mkCryptoData 1), d.timestamp = 1) ∧
    ((store_crypto_data false 2
          (store_crypto_data false 1 emptyDB sampleQuotes).1
          sampleQuotes).1.data =
        (store_crypto_data false 1 emptyDB sampleQuotes).1.data ++
          sampleQuotes.map (mkCryptoData 2) ∧
      ∀ d ∈ sampleQuotes.map (mkCryptoData 2), d.timestamp = 2) ∧
    1 ≠ 2 ∧
    ∀ r ∈ get_latest_top_10
        (store_crypto_data false 2
          (store_crypto_data false 1 emptyDB sampleQuotes).1 sampleQuotes).1,
      r.timestamp = 2) :=
  ⟨⟨by decide, by decide, by decide⟩,
    C3_timestamp_groups emptyDB 1 2 sampleQuotes sampleQuotes (by decide)
      (by decide) (by decide)⟩

/-- C4: when the fetch step fails (`fetch_top_10_cryptocurrencies` returned
`None`), `lambda_handler` appends exactly one `DashboardUpdate` row with
status "failed", a non-null error message and `email_sent = False`, adds no
`CryptoData` (or `CryptoCurrency`) rows, calls the error notification, and
returns statusCode 500. -/
theorem C4_fetch_failure (st : DBState) (now : Nat) (storeFail emailOk : Bool) :
    (lambda_handler st now none storeFail false emailOk).1.updates =
        st.updates ++ [⟨now, "failed", some fetchErrorMsg, false, none⟩] ∧
      (lambda_handler st now none storeFail false emailOk).1.data = st.data ∧
      (lambda_handler st now none storeFail false emailOk).1.cryptos =
        st.cryptos ∧
      (lambda_handler st now none storeFail false emailOk).2.statusCode = 500 ∧
      (lambda_handler st now none storeFail false emailOk).2.errorNotified =
        true :=
  ⟨rfl, rfl, rfl, rfl, rfl⟩

/-- C5: when the store succeeds and the notifier fails
(`send_daily_dashboard_email` returned `False`), the run is still reported as
success (statusCode 200), exactly one `DashboardUpdate` row is written with
status "success" and `email_sent = False`, and `get_latest_top_10` reflects
the newly stored data. -/
theorem C5_notify_failure_still_success (st : DBState) (now : Nat)
    (qs : List Quote) (hne : qs ≠ [])
    (hfresh : ∀ d ∈ st.data, d.timestamp < now) :
    (lambda_handler st now (some qs) false false false).2.statusCode = 200 ∧
      (lambda_handler st now (some qs) false false false).1.updates =
        st.updates ++ [⟨now, "success", none, false, none⟩] ∧
      (lambda_handler st now (some qs) false false false).1.data =
        st.data ++ qs.map (mkCryptoData now) ∧
      get_latest_top_10 (lambda_handler st now (some qs) false false false).1 =
        get_latest_top_10 (store_crypto_data false now st qs).1 ∧
      ∀ r ∈ get_latest_top_10
          (lambda_handler st now (some qs) false false false).1,
        r.timestamp = now := by
  obtain ⟨a, l, rfl⟩ := List.exists_cons_of_ne_nil hne
  refine ⟨rfl, rfl, rfl, rfl, ?_⟩
  apply get_latest_top_10_timestamp
  have hdata : (lambda_handler st now (some (a :: l)) false false
      false).1.data = st.data ++ (a :: l).map (mkCryptoData now) := rfl
  rw [hdata]
  refine latestTimestamp_append_fresh _ _ _ hfresh (by simp) ?_
  intro d hd
  obtain ⟨q, _, rfl⟩ := List.mem_map.mp hd
  rfl

theorem C5_witness :
    (sampleQuotes ≠ [] ∧ ∀ d ∈ emptyDB.data, d.timestamp < 3) ∧
    ((lambda_handler emptyDB 3 (some sampleQuotes) false false
          false).2.statusCode = 200 ∧
      (lambda_handler emptyDB 3 (some sampleQuotes) false false
          false).1.updates =
        emptyDB.updates ++ [⟨3, "success", none, false, none⟩] ∧
      (lambda_handler emptyDB 3 (some sampleQuotes) false false false).1.data =
        emptyDB.data ++ sampleQuotes.map (mkCryptoData 3) ∧
      get_latest_top_10
          (lambda_handler emptyDB 3 (some sampleQuotes) false false false).1 =
        get_latest_top_10 (store_crypto_data false 3 emptyDB sampleQuotes).1 ∧
      ∀ r ∈ get_latest_top_10
          (lambda_handler emptyDB 3 (some sampleQuotes) false false false).1,
        r.timestamp = 3) :=
  ⟨⟨by decide, by decide⟩,
    C5_notify_failure_still_success emptyDB 3 sampleQuotes (by decide)
      (by decide)⟩

/-- C7 fails on the code: at a concrete successful run the logged
`DashboardUpdate` row carries `top_10_data = none`, not the run's fetched
quotes, because the success log call at lambda_function.py lines 85-87 never
passes `top_10_data`. -/
theorem C7_counterexample :
    (lambda_handler emptyDB 5 (some [mkSampleQuote "btc" 1]) false false
        true).2.statusCode = 200 ∧
      (lambda_handler emptyDB 5 (some [mkSampleQuote "btc" 1]) false false
          true).1.updates.map DashboardUpdateRow.top_10_data = [none] ∧
      (none : Option (List Quote)) ≠ some [mkSampleQuote "btc" 1] :=
  ⟨rfl, rfl, by decide⟩

/-- C7 (amended): on a successful run the final logging step records
status "success", a null error message and the notify step's Boolean result
as `email_sent`, but a null `top_10_data` — the run's fetched quotes are not
passed to `log_dashboard_update`. -/
theorem C7_success_log_row (st : DBState) (now : Nat) (q : Quote)
    (qs : List Quote) (emailOk : Bool) :
    (lambda_handler st now (some (q :: qs)) false false
        emailOk).2.statusCode = 200 ∧
      (lambda_handler st now (some (q :: qs)) false false emailOk).1.updates =
        st.updates ++ [⟨now, "success", none, emailOk, none⟩] :=
  ⟨rfl, rfl⟩

/-- C8: `cleanup_old_data d` deletes exactly the `CryptoData` and
`DashboardUpdate` rows whose timestamp is strictly earlier than `d` days
(86400 s) before `now`, keeps all newer rows, and returns `True`. -/
theorem C8_cleanup_retention (st : DBState) (now days_to_keep : Nat)
    (hnow : days_to_keep * 86400 ≤ now) :
    (cleanup_old_data false now st days_to_keep).2 = true ∧
      (∀ d, d ∈ (cleanup_old_data false now st days_to_keep).1.data ↔
        (d ∈ st.data ∧ now - days_to_keep * 86400 ≤ d.timestamp)) ∧
      (∀ u, u ∈ (cleanup_old_data false now st days_to_keep).1.updates ↔
        (u ∈ st.updates ∧ now - days_to_keep * 86400 ≤ u.update_timestamp)) ∧
      (cleanup_old_data false now st days_to_keep).1.cryptos = st.cryptos := by
  refine ⟨rfl, ?_, ?_, rfl⟩
  · intro d
    show d ∈ st.data.filter
        (fun d => !(decide (d.timestamp < now - days_to_keep * 86400))) ↔ _
    rw [List.mem_filter]
    simp [Nat.not_lt]
  · intro u
    show u ∈ st.updates.filter
        (fun u => !(decide (u.update_timestamp < now - days_to_keep * 86400)))
      ↔ _
    rw [List.mem_filter]
    simp [Nat.not_lt]

theorem C8_witness :
    30 * 86400 ≤ 8640000 ∧
    ((cleanup_old_data false 8640000 retentionDB 30).2 = true ∧
      (∀ d, d ∈ (cleanup_old_data false 8640000 retentionDB 30).1.data ↔
        (d ∈ retentionDB.data ∧ 8640000 - 30 * 86400 ≤ d.timestamp)) ∧
      (∀ u, u ∈ (cleanup_old_data false 8640000 retentionDB 30).1.updates ↔
        (u ∈ retentionDB.updates ∧
          8640000 - 30 * 86400 ≤ u.update_timestamp)) ∧
      (cleanup_old_data false 8640000 retentionDB 30).1.cryptos =
        retentionDB.cryptos) :=
  ⟨by decide, C8_cleanup_retention retentionDB 8640000 30 (by decide)⟩

/-- C9: a failing `log_dashboard_update` appends no `DashboardUpdate` row and
returns `False`, while every `CryptoCurrency` and `CryptoData` row committed
by the preceding successful `store_crypto_data` is left unchanged. -/
theorem C9_log_failure_frame (st : DBState) (now now2 : Nat)
    (qs : List Quote) (status : String) (err : Option String) (sent : Bool)
    (payload : Option (List Quote)) :
    (store_crypto_data false now st qs).2 = true ∧
      (log_dashboard_update true now2 (store_crypto_data false now st qs).1
          status err sent payload).2 = false ∧
      (log_dashboard_update true now2 (store_crypto_data false now st qs).1
          status err sent payload).1 = (store_crypto_data false now st qs).1 ∧
      (log_dashboard_update true now2 (store_crypto_data false now st qs).1
          status err sent payload).1.updates = st.updates ∧
      (log_dashboard_update true now2 (store_crypto_data false now st qs).1
          status err sent payload).1.data =
        st.data ++ qs.map (mkCryptoData now) :=
  ⟨rfl, rfl, rfl, rfl, rfl⟩

/-- C10: a successful fetch that returns the empty list takes exactly the
same path as a failed fetch, because `if not crypto_data` cannot tell
`[]` from `None`: one failed `DashboardUpdate` row, an error notification,
no new `CryptoData` rows, statusCode 500. -/
theorem C10_empty_fetch_is_failure (st : DBState) (now : Nat)
    (storeFail emailOk : Bool) :
    lambda_handler st now (some []) storeFail false emailOk =
        lambda_handler st now none storeFail false emailOk ∧
      (lambda_handler st now (some []) storeFail false emailOk).1.updates =
        st.updates ++ [⟨now, "failed", some fetchErrorMsg, false, none⟩] ∧
      (lambda_handler st now (some []) storeFail false emailOk).1.data =
        st.data ∧
      (lambda_handler st now (some []) storeFail false
          emailOk).2.statusCode = 500 ∧
      (lambda_handler st now (some []) storeFail false
          emailOk).2.errorNotified = true :=
  ⟨rfl, rfl, rfl, rfl, rfl⟩

/-- C6: on a successful API response carrying 10 coins (the request asks for
`per_page=10`), `fetch_top_10_cryptocurrencies` returns an ordered list of
exactly 10 normalized quotes, each carrying id, name, upper-cased symbol,
price, market cap, volume, 24h change percent and rank, with a null
24h-change field defaulting to 0. -/
theorem C6_fetch_normalizes (coins : List Coin) (hlen : coins.length = 10) :
    ∃ qs, fetch_top_10_cryptocurrencies (some coins) = some qs ∧
      qs.length = 10 ∧
      ∀ i, (hq : i < qs.length) → (hc : i < coins.length) →
        qs[i].id = coins[i].id ∧
        qs[i].name = coins[i].name ∧
        qs[i].symbol = coins[i].symbol.toUpper ∧
        qs[i].price_usd = coins[i].current_price ∧
        qs[i].market_cap_usd = coins[i].market_cap ∧
        qs[i].volume_24h_usd = coins[i].total_volume ∧
        qs[i].market_cap_rank = coins[i].market_cap_rank ∧
        qs[i].price_change_24h_percent =
          (coins[i].price_change_percentage_24h).getD 0 ∧
        (coins[i].price_change_percentage_24h = none →
          qs[i].price_change_24h_percent = 0) := by
  refine ⟨coins.map normalizeCoin, rfl, by simpa using hlen, ?_⟩
  intro i hq hc
  refine ⟨?_, ?_, ?_, ?_, ?_, ?_, ?_, ?_, fun h => ?_⟩ <;>
    simp [normalizeCoin, *]

theorem C6_witness :
    sampleCoins.length = 10 ∧
    (∃ qs, fetch_top_10_cryptocurrencies (some sampleCoins) = some qs ∧
      qs.length = 10 ∧
      ∀ i, (hq : i < qs.length) → (hc : i < sampleCoins.length) →
        qs[i].id = sampleCoins[i].id ∧
        qs[i].name = sampleCoins[i].name ∧
        qs[i].symbol = sampleCoins[i].symbol.toUpper ∧
        qs[i].price_usd = sampleCoins[i].current_price ∧
        qs[i].market_cap_usd = sampleCoins[i].market_cap ∧
        qs[i].volume_24h_usd = sampleCoins[i].total_volume ∧
        qs[i].market_cap_rank = sampleCoins[i].market_cap_rank ∧
        qs[i].price_change_24h_percent =
          (sampleCoins[i].price_change_percentage_24h).getD 0 ∧
        (sampleCoins[i].price_change_percentage_24h = none →
          qs[i].price_change_24h_percent = 0)) :=
  ⟨by decide, C6_fetch_normalizes sampleCoins (by decide)⟩

end CryptoDashboard
